import Mathlib

/- Verification of the NFSe Nacional retrieval pipeline (src/nfse.ts, index.ts):
a shallow embedding of the listing crawler's date-window split, row scraping,
authentication detection, login, the nested-path extractor and the
auto-reauth wrapper, with theorems for the specified properties.
Calendar dates are embedded as integer day numbers (JS `Date` arithmetic via
`setDate` adds whole calendar days); JS strings are Lean `String`s; the
XML-derived document tree is an inductive JSON-like value type; `undefined`
and `null` are merged into one null value (they behave identically in every
code path modeled here). -/

namespace Nfse

/-- A listing window: a closed date interval, both endpoints as day numbers. -/
abbrev Window := Int × Int

/-- Iterations of the `while (currentStart <= end)` loop of `buscar_nfse`
(nfse.ts lines 179-261), restricted to the window computation:
`chunkEnd = currentStart + 29` clipped to `end`, next start `chunkEnd + 1`.
The `fuel` argument bounds the iteration count; `(e + 1 - s).toNat` always
suffices because every iteration advances `currentStart` by at least one day
(proved below as `buscarWindowsAux_fuel`). -/
def buscarWindowsAux : Nat → Int → Int → List Window
  | 0, _, _ => []
  | fuel + 1, s, e =>
    if s ≤ e then
      (s, min (s + 29) e) :: buscarWindowsAux fuel (min (s + 29) e + 1) e
    else []

/-- The sequence of `[datainicio, datafim]` windows requested by `buscar_nfse`
for the inclusive range `[s, e]`. -/
def buscarWindows (s e : Int) : List Window :=
  buscarWindowsAux (e + 1 - s).toNat s e

/-- JS `String.prototype.includes` over character lists. -/
def listContainsSub (pat : List Char) : List Char → Bool
  | [] => pat.isEmpty
  | c :: rest => pat.isPrefixOf (c :: rest) || listContainsSub pat rest

/-- JS `s.includes(pat)`. -/
def containsSub (s pat : String) : Bool := listContainsSub pat.toList s.toList

/-- JS `String.prototype.endsWith`. -/
def jsEndsWith (s suffixStr : String) : Bool := suffixStr.toList.isSuffixOf s.toList

/-- JS `String.prototype.startsWith`. -/
def jsStartsWith (s pre : String) : Bool := pre.toList.isPrefixOf s.toList

/-- JS `String.prototype.trim`. -/
def jsTrim (s : String) : String :=
  String.mk (((s.toList.dropWhile Char.isWhitespace).reverse.dropWhile
    Char.isWhitespace).reverse)

/-- Accumulator pass of JS `split('.')`: `acc` holds the current segment's
characters in reverse. -/
def splitDotGo : List Char → List Char → List String
  | acc, [] => [String.mk acc.reverse]
  | acc, c :: rest =>
    if c == '.' then String.mk acc.reverse :: splitDotGo [] rest
    else splitDotGo (c :: acc) rest

/-- JS `path.split('.')` (never the empty list; `"".split('.')` is `[""]`). -/
def jsSplitDot (s : String) : List String := splitDotGo [] s.toList

/-- The portal's login path constant appearing in `checkAuthentication`. -/
def loginPath : String := "/EmissorNacional/Login"

/-- nfse.ts `checkAuthentication` (lines 126-136): `true` means the function
throws `UnauthenticatedSessionException`. `responseUrl = none` models an
absent `response.request?.res?.responseUrl` (the source substitutes `''`);
`location = none` models an absent `Location` header (short-circuited by
`location && ...`; that guard also rejects a JS-falsy empty string, on which
`includes` of the non-empty login path is false anyway, so `getD ""` is
faithful). -/
def checkAuthentication (responseUrl location : Option String) : Bool :=
  containsSub (responseUrl.getD "") loginPath ||
    containsSub (location.getD "") loginPath

/-- The literal path of the download-link regex in `buscar_nfse` (line 215). -/
def downloadPat : String := "/EmissorNacional/Notas/Download/NFSe/"

/-- One attempt of the regex `\/EmissorNacional\/Notas\/Download\/NFSe\/(\d+)`
at a fixed position: the literal path followed by at least one digit; the
capture group is the maximal digit run (greedy `\d+`). -/
def matchKeyAt (cs : List Char) : Option String :=
  if downloadPat.toList.isPrefixOf cs then
    let ds := (cs.drop downloadPat.length).takeWhile Char.isDigit
    if ds.isEmpty then none else some (String.mk ds)
  else none

/-- Leftmost match of the download-link regex, as `String.prototype.match`
finds it; `""` when the regex matches nowhere (the source leaves
`chave = ''`). -/
def findKey : List Char → String
  | [] => ""
  | c :: rest =>
    match matchKeyAt (c :: rest) with
    | some k => k
    | none => findKey rest

/-- nfse.ts lines 211-221: the `chave` extracted from the download anchor's
`href`; `none` models a row whose selector finds no anchor (`attr('href')`
is `undefined`); a JS-falsy empty `href` likewise leaves `chave = ''`. -/
def extractChave (href : Option String) : String :=
  match href with
  | none => ""
  | some h => findKey h.toList

/-- JS `replace(/\s+/g, ' ')`: each maximal whitespace run becomes a single
space. The Bool flag records being inside a run already replaced. -/
def collapseWsGo : Bool → List Char → List Char
  | _, [] => []
  | inRun, c :: rest =>
    if c.isWhitespace then
      if inRun then collapseWsGo true rest
      else ' ' :: collapseWsGo true rest
    else c :: collapseWsGo false rest

/-- JS `s.replace(/\s+/g, ' ')`. -/
def collapseWs (s : String) : String := String.mk (collapseWsGo false s.toList)

/-- JS `String.prototype.replace` with a plain-string pattern and empty
replacement: removes the first occurrence of `pat`; the string is unchanged
when `pat` does not occur (and when `pat` is empty, matching JS, where the
empty match at position 0 is replaced by the empty string). -/
def removeFirst : List Char → List Char → List Char
  | [], _ => []
  | c :: rest, pat =>
    if pat.isPrefixOf (c :: rest) then (c :: rest).drop pat.length
    else c :: removeFirst rest pat

/-- JS `replace(/^[\s-]+/, '')` (line 230). -/
def stripLeadingSep (cs : List Char) : List Char :=
  cs.dropWhile (fun c => c.isWhitespace || c == '-')

/-- Numeric value of a digit run. -/
def digitsVal (ds : List Char) : Nat :=
  ds.foldl (fun acc c => acc * 10 + (c.toNat - 48)) 0

/-- JS `parseFloat` on the decimal shapes the crawler feeds it: optional
leading whitespace and sign, an integer digit run, an optional `.` and
fractional digit run; `none` models `NaN`; trailing garbage is ignored
exactly as `parseFloat` ignores it. Exponent suffixes and `Infinity` (never
produced by the portal's monetary text) are not modeled. The IEEE double
result is modeled as an exact rational; the claimed values are exactly
representable. -/
def jsParseFloat (s : String) : Option Rat :=
  let cs := s.toList.dropWhile Char.isWhitespace
  let signNeg : Bool :=
    match cs with
    | '-' :: _ => true
    | _ => false
  let cs1 :=
    match cs with
    | '-' :: rest => rest
    | '+' :: rest => rest
    | _ => cs
  let intDigits := cs1.takeWhile Char.isDigit
  let cs2 := cs1.dropWhile Char.isDigit
  let fracDigits :=
    match cs2 with
    | '.' :: rest => rest.takeWhile Char.isDigit
    | _ => []
  if intDigits.isEmpty && fracDigits.isEmpty then none
  else
    let mag : Rat :=
      (digitsVal intDigits : Rat) +
        (digitsVal fracDigits : Rat) / ((10 : Rat) ^ fracDigits.length)
    some (if signNeg then -mag else mag)

/-- JS `replace(',', '.')` with a plain-string pattern: only the first comma
is replaced. -/
def replaceFirstComma : List Char → List Char
  | [] => []
  | c :: rest => if c == ',' then '.' :: rest else c :: replaceFirstComma rest

/-- nfse.ts line 236:
`parseFloat(valorStr.replace(/\./g, '').replace(',', '.'))`. -/
def parseValor (valorStr : String) : Option Rat :=
  jsParseFloat (String.mk (replaceFirstComma
    (valorStr.toList.filter (fun c => c != '.'))))

structure EmitidoPara where
  cnpj : String
  nome : String
  deriving DecidableEq

/-- The `NfseListItem` interface of nfse.ts; `valor` is a JS number, with
`NaN` modeled as `none`. -/
structure NfseListItem where
  data : String
  emitidoPara : EmitidoPara
  competencia : String
  municipioEmissor : String
  valor : Option Rat
  status : String
  chave : String
  deriving DecidableEq

/-- One `<tr>` of the listing table, reduced to what the scraper reads from
it: `href` is the matched download anchor's `href` attribute (`none` when the
selector finds no anchor or the anchor has no `href`); the `*Text` fields are
the raw cheerio `.text()` results of the fixed cell selectors; `dataSituacao`
is the row's `data-situacao` attribute (`none` when absent). -/
structure Row where
  href : Option String
  tdDataText : String
  cnpjText : String
  emitidoParaText : String
  tdCompetenciaText : String
  tdCenterText : String
  tdValorText : String
  dataSituacao : Option String
  deriving DecidableEq

/-- nfse.ts lines 207-248: the per-row scraping callback. `none` models the
early `return` that silently skips a row without an extractable key. -/
def processRow (r : Row) : Option NfseListItem :=
  let chave := extractChave r.href
  if chave == "" then none
  else
    let cnpj := jsTrim r.cnpjText
    let fullText := collapseWs (jsTrim r.emitidoParaText)
    let nome :=
      if cnpj == "" then fullText
      else jsTrim (String.mk (stripLeadingSep (removeFirst fullText.toList cnpj.toList)))
    some {
      data := jsTrim r.tdDataText
      emitidoPara := { cnpj := cnpj, nome := nome }
      competencia := jsTrim r.tdCompetenciaText
      municipioEmissor := jsTrim r.tdCenterText
      valor := parseValor (jsTrim r.tdValorText)
      status := r.dataSituacao.getD ""
      chave := chave }

/-- Outcome of one listing GET: the request either threw (network error, or a
status outside `[200, 400)` rejected by `validateStatus`) or yielded a
response with its resolved URL, its `Location` header and the scraped table
rows. -/
inductive WindowResult where
  | netFailure
  | response (responseUrl location : Option String) (rows : List Row)
  deriving DecidableEq

inductive Outcome where
  | ok (items : List NfseListItem)
  | authFailure
  | otherFailure
  deriving DecidableEq

/-- The body of the per-window `try` block of `buscar_nfse` (lines 187-257):
a thrown request is a non-authentication failure; a response referencing the
login path raises `UnauthenticatedSessionException` before any parsing;
otherwise every scraped row goes through `processRow`. -/
def runWindow (resp : WindowResult) : Outcome :=
  match resp with
  | .netFailure => .otherFailure
  | .response u l rows =>
    if checkAuthentication u l then .authFailure
    else .ok (rows.filterMap processRow)

inductive CrawlResult where
  | unauthenticated
  | items (nfses : List NfseListItem)
  deriving DecidableEq

/-- The window loop of `buscar_nfse`: accumulates `allNfses` across windows,
continues after a caught per-window failure, and aborts — losing the
accumulator, as the thrown exception does — on
`UnauthenticatedSessionException`. The second component records which windows
were actually requested, in order. -/
def crawlWindows (net : Window → WindowResult) :
    List Window → CrawlResult × List Window
  | [] => (.items [], [])
  | w :: ws =>
    match runWindow (net w) with
    | .authFailure => (.unauthenticated, [w])
    | .otherFailure =>
      match crawlWindows net ws with
      | (r, t) => (r, w :: t)
    | .ok items =>
      match crawlWindows net ws with
      | (.unauthenticated, t) => (.unauthenticated, w :: t)
      | (.items rest, t) => (.items (items ++ rest), w :: t)

/-- nfse.ts `buscar_nfse` (lines 169-264) with the HTTP layer abstracted as a
per-window oracle `net`. -/
def buscar_nfse (net : Window → WindowResult) (s e : Int) :
    CrawlResult × List Window :=
  crawlWindows net (buscarWindows s e)

/-- Items delivered to the caller: the thrown
`UnauthenticatedSessionException` delivers none. -/
def crawlItems : CrawlResult → List NfseListItem
  | .unauthenticated => []
  | .items l => l

/-- The item list one window contributes to the final result. -/
def windowItems (net : Window → WindowResult) (w : Window) : List NfseListItem :=
  match runWindow (net w) with
  | .ok items => items
  | _ => []

/-- The JSON-like tree produced by `xml2js` parsing, as traversed by
`getNested`: strings, sequences, string-keyed mappings and null/undefined. -/
inductive JVal where
  | jnull
  | jstr (s : String)
  | jarr (elems : List JVal)
  | jobj (fields : List (String × JVal))

/-- A JS evaluation result: a value, or a thrown `TypeError`. -/
inductive JResult where
  | thrown
  | value (v : JVal)

/-- JS falsiness of the values `getNested` can receive: null/undefined and
the empty string are falsy; every array and object is truthy. -/
def jsFalsy : JVal → Bool
  | .jnull => true
  | .jstr s => s == ""
  | .jarr _ => false
  | .jobj _ => false

/-- JS `current[0]`: the first element, `undefined` on an empty array. -/
def arrayFirst : List JVal → JVal
  | [] => .jnull
  | x :: _ => x

/-- JS property lookup `obj[part]` on a plain object: the bound value, or
`undefined` when the key is absent. -/
def lookupField (fields : List (String × JVal)) (key : String) : JVal :=
  match fields with
  | [] => .jnull
  | (k, v) :: rest => if k == key then v else lookupField rest key

/-- The `for (const part of parts)` loop of `getNested` (nfse.ts lines
273-281), with the array-unwrap inlined per constructor of the current node.
Each step: an early `return null` when the current node is null/undefined;
otherwise an array is first replaced by its first element; then
`current = current[part]`. Indexing null/undefined (an empty array's, or a
null-headed array's, first element) throws a `TypeError` (`JResult.thrown`);
indexing a string or an array by a field name yields `undefined`
(numeric-string subscripts, which occur in none of the dotted paths of this
repository, are not modeled). -/
def loopParts : JVal → List String → JResult
  | cur, [] => .value cur
  | .jnull, _ :: _ => .value .jnull
  | .jstr _, _ :: rest => loopParts .jnull rest
  | .jarr xs, part :: rest =>
    match arrayFirst xs with
    | .jnull => .thrown
    | .jobj fields => loopParts (lookupField fields part) rest
    | .jstr _ => loopParts .jnull rest
    | .jarr _ => loopParts .jnull rest
  | .jobj fields, part :: rest => loopParts (lookupField fields part) rest

/-- nfse.ts `getNested` (lines 266-288): falsy root returns null; the empty
path returns the whole tree; otherwise the path is split on `.` and walked;
a final array result is replaced by its first element, and `?? null` turns a
final `undefined` into null. -/
def getNested (obj : JVal) (path : String) : JResult :=
  if jsFalsy obj then .value .jnull
  else if path == "" then .value obj
  else
    match loopParts obj (jsSplitDot path) with
    | .thrown => .thrown
    | .value cur =>
      .value (match cur with
        | .jarr xs => arrayFirst xs
        | c => c)

mutual
/-- Trees on which `getNested`'s traversal cannot throw: every sequence node
is non-empty and its first element is not null. (Trees produced by `xml2js`
satisfy this: element wrappers are non-empty arrays of strings/objects.) -/
def goodTree : JVal → Bool
  | .jnull => true
  | .jstr _ => true
  | .jarr [] => false
  | .jarr (x :: xs) =>
    (match x with | .jnull => false | _ => true) && goodTree x && goodList xs
  | .jobj fields => goodFields fields

def goodList : List JVal → Bool
  | [] => true
  | x :: xs => goodTree x && goodList xs

def goodFields : List (String × JVal) → Bool
  | [] => true
  | (_, v) :: rest => goodTree v && goodFields rest
end

/-- Outcome of the login GET to `/EmissorNacional/Certificado`: the request
either threw before producing a response (DNS/TLS/connection failure), or
produced a response with a status code, an optional `Location` header and an
optional `Set-Cookie` header set. -/
inductive LoginHttp where
  | netError (msg : String)
  | resp (status : Nat) (location : Option String) (setCookie : Option (List String))
  deriving DecidableEq

/-- nfse.ts `login` (lines 138-167) with the HTTP layer abstracted: a status
outside `[200, 400)` is rejected by `validateStatus`, so axios throws and the
`catch` wraps it; then the `Location` header must exist and end with the
dashboard path (a JS-falsy empty `Location` fails the `!location` guard, and
also fails `endsWith`, so `Option` plus `jsEndsWith` is faithful); on success
an absent `Set-Cookie` yields the empty session. The error string is the
`ApplicationException` message. -/
def login (r : LoginHttp) : Except String (List String) :=
  match r with
  | .netError m => .error ("Falha ao realizar login: " ++ m)
  | .resp status location setCookie =>
    if status < 200 ∨ 400 ≤ status then
      .error ("Falha ao realizar login: Request failed with status code " ++ toString status)
    else
      match location with
      | none => .error "Falha ao realizar login: Redirecionamento incorreto ou ausente."
      | some loc =>
        if jsEndsWith loc "/EmissorNacional/Dashboard" then
          match setCookie with
          | none => .ok []
          | some cookies => .ok cookies
        else .error "Falha ao realizar login: Redirecionamento incorreto ou ausente."

/-- Errors crossing the wrapper boundary in index.ts:
`ApplicationException` with its message, its specialization
`UnauthenticatedSessionException`, and any other thrown value. -/
inductive McpError where
  | application (msg : String)
  | unauthenticated
  | otherError
  deriving DecidableEq

/-- The configuration and network environment of index.ts:
`CERT_PASSWORD`/`CERT_FILE` (with `none` for unset; the JS `!x` guards also
treat the empty string as missing, handled via `strTruthy`), certificate-file
existence, and the result of the k-th `login` call (0-based). -/
structure AuthEnv where
  certPassword : Option String
  certFile : Option String
  certExists : Bool
  loginResult : Nat → Except String (List String)

/-- JS truthiness of an optional environment string. -/
def strTruthy : Option String → Bool
  | none => false
  | some s => s != ""

/-- The process-wide mutable state of index.ts: `cachedCookies`
(`string[] | null`, so `some []` and `none` are distinct — and `some []` is
truthy in the `if (cachedCookies)` check), plus a count of `login` calls
performed, used to address the `loginResult` oracle. -/
structure AuthState where
  cachedCookies : Option (List String)
  loginCalls : Nat
  deriving DecidableEq

/-- index.ts `ensureAuthenticated` (lines 54-79). Note the source assigns
`cachedCookies = await login(...)` before checking emptiness, so the
cookie list is cached even when the subsequent emptiness check throws. -/
def ensureAuthenticated (env : AuthEnv) (st : AuthState) :
    Except McpError (List String) × AuthState :=
  match st.cachedCookies with
  | some cs => (.ok cs, st)
  | none =>
    if strTruthy env.certPassword = false then
      (.error (.application "CERT_PASSWORD nao configurado."), st)
    else if strTruthy env.certFile = false then
      (.error (.application "CERT_FILE nao configurado."), st)
    else if env.certExists = false then
      (.error (.application "Certificado nao encontrado"), st)
    else
      match env.loginResult st.loginCalls with
      | .error m => (.error (.application m), { st with loginCalls := st.loginCalls + 1 })
      | .ok cookies =>
        let st' : AuthState :=
          { cachedCookies := some cookies, loginCalls := st.loginCalls + 1 }
        if cookies.length = 0 then
          (.error (.application "Nenhum cookie recebido apos login."), st')
        else (.ok cookies, st')

/-- State threaded through `withAutoLogin`: the auth state plus a count of
invocations of the wrapped action, used to address the action oracle. -/
structure RunState where
  auth : AuthState
  actionCalls : Nat
  deriving DecidableEq

/-- index.ts `withAutoLogin` (lines 81-93): `ensure`, run the action; on
`UnauthenticatedSessionException` clear the cache, `ensure` again, run the
action once more outside any `try` — any error of the second attempt,
including a second `UnauthenticatedSessionException`, propagates unmodified.
The action oracle receives the attempt index and the session it was given. -/
def withAutoLogin {α : Type} (env : AuthEnv)
    (action : Nat → List String → Except McpError α)
    (st : RunState) : Except McpError α × RunState :=
  match ensureAuthenticated env st.auth with
  | (.error e, a1) => (.error e, { st with auth := a1 })
  | (.ok cookies, a1) =>
    let st1 : RunState := { auth := a1, actionCalls := st.actionCalls + 1 }
    match action st.actionCalls cookies with
    | .error .unauthenticated =>
      let cleared : AuthState := { st1.auth with cachedCookies := none }
      match ensureAuthenticated env cleared with
      | (.error e, a2) => (.error e, { st1 with auth := a2 })
      | (.ok fresh, a2) =>
        (action st1.actionCalls fresh,
          { auth := a2, actionCalls := st1.actionCalls + 1 })
    | r => (r, st1)

/-- A well-formed listing row whose download anchor carries key 123456. -/
def rowOk : Row :=
  { href := some "/EmissorNacional/Notas/Download/NFSe/123456"
    tdDataText := " 01/02/2026 "
    cnpjText := " 12.345.678/0001-90 "
    emitidoParaText := "  12.345.678/0001-90  -  ACME LTDA "
    tdCompetenciaText := "02/2026"
    tdCenterText := "Florianopolis"
    tdValorText := " 15.000,00 "
    dataSituacao := some "ativa" }

/-- A row whose selector finds no download anchor. -/
def rowNoKey : Row := { rowOk with href := none }

/-- Network oracle for the C3 witness: the first window answers normally, any
other window redirects to the login page. -/
def c3net : Window → WindowResult := fun w =>
  if w.1 = 0 then .response none none [rowOk]
  else .response (some "https://www.nfse.gov.br/EmissorNacional/Login?ReturnUrl=x") none []

/-- Network oracle for the C4 witness: the window starting at day 30 fails
with a network error, all others answer with one well-formed row. -/
def c4net : Window → WindowResult := fun w =>
  if w.1 = 30 then .netFailure
  else .response none none [rowOk]

/-- Environment for the C5 witness: credentials present, every login yields
a non-empty session. -/
def c5env : AuthEnv :=
  { certPassword := some "pw"
    certFile := some "cert.pfx"
    certExists := true
    loginResult := fun _ => .ok ["session=abc"] }

/-- Action for the C5 witness: expires on every attempt. -/
def c5act : Nat → List String → Except McpError String :=
  fun _ _ => .error .unauthenticated

/-- Environment for C6: credentials present, but every login returns an empty
cookie list (dashboard redirect without `Set-Cookie`). -/
def c6env : AuthEnv :=
  { certPassword := some "pw"
    certFile := some "cert.pfx"
    certExists := true
    loginResult := fun _ => .ok [] }

theorem buscarWindowsAux_stop (fuel : Nat) (s e : Int) (h : ¬ s ≤ e) :
    buscarWindowsAux fuel s e = [] := by
  cases fuel with
  | zero => rfl
  | succ n => simp [buscarWindowsAux, h]

theorem buscarWindowsAux_fuel (fuel fuel' : Nat) (s e : Int)
    (h : (e + 1 - s).toNat ≤ fuel) (h' : (e + 1 - s).toNat ≤ fuel') :
    buscarWindowsAux fuel s e = buscarWindowsAux fuel' s e := by
  induction fuel generalizing fuel' s with
  | zero =>
    have hse : ¬ s ≤ e := by omega
    rw [buscarWindowsAux_stop _ _ _ hse, buscarWindowsAux_stop _ _ _ hse]
  | succ n ih =>
    by_cases hse : s ≤ e
    · cases fuel' with
      | zero => omega
      | succ m =>
        simp only [buscarWindowsAux, hse, if_true]
        rw [ih m (min (s + 29) e + 1) (by omega) (by omega)]
    · rw [buscarWindowsAux_stop _ _ _ hse, buscarWindowsAux_stop _ _ _ hse]

/-- Unfolding equation for `buscarWindows` in the `s ≤ e` case: it behaves
exactly like one pass of the source's while loop. -/
theorem buscarWindows_cons (s e : Int) (h : s ≤ e) :
    buscarWindows s e =
      (s, min (s + 29) e) :: buscarWindows (min (s + 29) e + 1) e := by
  unfold buscarWindows
  obtain ⟨k, hk⟩ : ∃ k, (e + 1 - s).toNat = k + 1 := ⟨(e - s).toNat, by omega⟩
  rw [hk]
  simp only [buscarWindowsAux, h, if_true]
  rw [buscarWindowsAux_fuel k (e + 1 - (min (s + 29) e + 1)).toNat _ _ (by omega) (by omega)]

theorem buscarWindows_nil (s e : Int) (h : ¬ s ≤ e) : buscarWindows s e = [] :=
  buscarWindowsAux_stop _ _ _ h

theorem buscarWindowsAux_mem (fuel : Nat) (s e : Int) (w : Window)
    (hw : w ∈ buscarWindowsAux fuel s e) :
    s ≤ w.1 ∧ w.1 ≤ w.2 ∧ w.2 ≤ e ∧ w.2 = min (w.1 + 29) e := by
  induction fuel generalizing s with
  | zero => simp [buscarWindowsAux] at hw
  | succ n ih =>
    by_cases hse : s ≤ e
    · simp only [buscarWindowsAux, hse, if_true, List.mem_cons] at hw
      rcases hw with rfl | hw
      · exact ⟨le_refl s, by show s ≤ min (s + 29) e; omega,
          by show min (s + 29) e ≤ e; omega, rfl⟩
      · have h := ih (min (s + 29) e + 1) hw
        omega
    · simp [buscarWindowsAux, hse] at hw

theorem buscarWindowsAux_head (fuel : Nat) (s e : Int) (w : Window)
    (h : (buscarWindowsAux fuel s e).head? = some w) : w.1 = s := by
  cases fuel with
  | zero => simp [buscarWindowsAux] at h
  | succ n =>
    by_cases hse : s ≤ e
    · simp only [buscarWindowsAux, hse, if_true, List.head?_cons, Option.some.injEq] at h
      rw [← h]
    · simp [buscarWindowsAux, hse] at h

theorem buscarWindowsAux_chain (fuel : Nat) (s e : Int) :
    List.Chain' (fun w w' : Window => w'.1 = w.2 + 1) (buscarWindowsAux fuel s e) := by
  induction fuel generalizing s with
  | zero => simp [buscarWindowsAux]
  | succ n ih =>
    by_cases hse : s ≤ e
    · simp only [buscarWindowsAux, hse, if_true]
      refine List.chain'_cons'.mpr ⟨?_, ih (min (s + 29) e + 1)⟩
      intro w' hw'
      have hh := buscarWindowsAux_head n (min (s + 29) e + 1) e w' (by simpa using hw')
      simp only [Prod.snd]
      omega
    · simp [buscarWindowsAux, hse]

theorem buscarWindowsAux_pairwise (fuel : Nat) (s e : Int) :
    List.Pairwise (fun w w' : Window => w.2 < w'.1) (buscarWindowsAux fuel s e) := by
  induction fuel generalizing s with
  | zero => simp [buscarWindowsAux]
  | succ n ih =>
    by_cases hse : s ≤ e
    · simp only [buscarWindowsAux, hse, if_true]
      refine List.pairwise_cons.mpr ⟨?_, ih (min (s + 29) e + 1)⟩
      intro w' hw'
      have h := buscarWindowsAux_mem n _ e w' hw'
      simp only [Prod.snd]
      omega
    · simp [buscarWindowsAux, hse]

theorem buscarWindowsAux_cover (fuel : Nat) (e d : Int) :
    ∀ s : Int, (e + 1 - s).toNat ≤ fuel → s ≤ d → d ≤ e →
    ∃ w ∈ buscarWindowsAux fuel s e, w.1 ≤ d ∧ d ≤ w.2 := by
  induction fuel with
  | zero => intro s hf h1 h2; omega
  | succ n ih =>
    intro s hf h1 h2
    have hse : s ≤ e := le_trans h1 h2
    simp only [buscarWindowsAux, hse, if_true]
    by_cases hd : d ≤ min (s + 29) e
    · exact ⟨(s, min (s + 29) e), List.mem_cons_self _ _, h1, hd⟩
    · obtain ⟨w, hw, hwd⟩ := ih (min (s + 29) e + 1) (by omega) (by omega) h2
      exact ⟨w, List.mem_cons_of_mem _ hw, hwd⟩

theorem buscarWindowsAux_length (fuel : Nat) (e : Int) :
    ∀ s : Int, (e + 1 - s).toNat ≤ fuel → s ≤ e →
    (buscarWindowsAux fuel s e).length = ((e - s).toNat + 30) / 30 := by
  induction fuel with
  | zero => intro s hf hse; omega
  | succ n ih =>
    intro s hf hse
    simp only [buscarWindowsAux, hse, if_true, List.length_cons]
    by_cases hend : e ≤ s + 29
    · have hmin : min (s + 29) e = e := by omega
      rw [hmin, buscarWindowsAux_stop n (e + 1) e (by omega)]
      simp only [List.length_nil]
      omega
    · have hmin : min (s + 29) e = s + 29 := by omega
      rw [hmin, ih (s + 29 + 1) (by omega) (by omega)]
      omega

/-- C1: for every `start ≤ end`, the windows generated by `buscar_nfse`'s loop
are contiguous (each next window begins the day after the previous one ends),
non-overlapping, cover exactly `[start, end]`, start with `[start, start + 29]`
clipped to `end`, each spans at most 30 days, the final window ends exactly at
`end`, and their count is `ceil((end - start + 1) / 30)`, written here as
`((e - s).toNat + 30) / 30` in truncating natural division. -/
theorem window_partition (s e : Int) (h : s ≤ e) :
    (buscarWindows s e).head? = some (s, min (s + 29) e) ∧
    List.Chain' (fun w w' : Window => w'.1 = w.2 + 1) (buscarWindows s e) ∧
    List.Pairwise (fun w w' : Window => w.2 < w'.1) (buscarWindows s e) ∧
    (∀ w ∈ buscarWindows s e, w.1 ≤ w.2 ∧ w.2 - w.1 ≤ 29 ∧ w.2 = min (w.1 + 29) e) ∧
    (∀ d : Int, (∃ w ∈ buscarWindows s e, w.1 ≤ d ∧ d ≤ w.2) ↔ (s ≤ d ∧ d ≤ e)) ∧
    (∃ w ∈ buscarWindows s e, w.2 = e) ∧
    (buscarWindows s e).length = ((e - s).toNat + 30) / 30 := by
  refine ⟨?_, buscarWindowsAux_chain _ s e, buscarWindowsAux_pairwise _ s e, ?_, ?_, ?_, ?_⟩
  · rw [buscarWindows_cons s e h]
    rfl
  · intro w hw
    have hm := buscarWindowsAux_mem _ s e w hw
    omega
  · intro d
    constructor
    · rintro ⟨w, hw, hd1, hd2⟩
      have hm := buscarWindowsAux_mem _ s e w hw
      omega
    · rintro ⟨h1, h2⟩
      exact buscarWindowsAux_cover _ e d s (le_refl _) h1 h2
  · obtain ⟨w, hw, hd1, hd2⟩ :=
      buscarWindowsAux_cover (e + 1 - s).toNat e e s (le_refl _) h (le_refl e)
    have hm := buscarWindowsAux_mem _ s e w hw
    exact ⟨w, hw, by omega⟩
  · exact buscarWindowsAux_length _ e s (le_refl _) h

/-- Witness for C1 at the concrete range `[0, 59]` (two windows). -/
theorem window_partition_witness :
    (buscarWindows 0 59).length = ((59 - 0 : Int).toNat + 30) / 30 :=
  (window_partition 0 59 (by decide)).2.2.2.2.2.2

/-- C10: when the start date is strictly after the end date the window loop
never executes: no window is generated, no listing request is issued (the
trace of requested windows is empty) and the result is the empty item list,
with no error raised. -/
theorem empty_range (net : Window → WindowResult) (s e : Int) (h : e < s) :
    buscarWindows s e = [] ∧ buscar_nfse net s e = (.items [], []) := by
  have h0 : buscarWindows s e = [] := buscarWindows_nil s e (by omega)
  refine ⟨h0, ?_⟩
  show crawlWindows net (buscarWindows s e) = _
  rw [h0]
  rfl

/-- Witness for C10 at `start = 5 > 3 = end`. -/
theorem empty_range_witness :
    buscarWindows 5 3 = [] ∧
      buscar_nfse (fun _ => WindowResult.netFailure) 5 3 = (.items [], []) :=
  empty_range (fun _ => .netFailure) 5 3 (by decide)

theorem crawlWindows_auth_result (net : Window → WindowResult) :
    ∀ l : List Window, (∃ w ∈ l, runWindow (net w) = .authFailure) →
    (crawlWindows net l).1 = .unauthenticated := by
  intro l
  induction l with
  | nil => rintro ⟨w, hw, _⟩; simp at hw
  | cons x xs ih =>
    rintro ⟨w, hw, hauth⟩
    rcases List.mem_cons.mp hw with rfl | hmem
    · simp [crawlWindows, hauth]
    · cases hx : runWindow (net x) with
      | ok items =>
        have h1 := ih ⟨w, hmem, hauth⟩
        rcases hrec : crawlWindows net xs with ⟨r, t⟩
        rw [hrec] at h1
        simp at h1
        subst h1
        simp [crawlWindows, hx, hrec]
      | authFailure => simp [crawlWindows, hx]
      | otherFailure =>
        have h1 := ih ⟨w, hmem, hauth⟩
        rcases hrec : crawlWindows net xs with ⟨r, t⟩
        rw [hrec] at h1
        simp at h1
        subst h1
        simp [crawlWindows, hx, hrec]

theorem crawlWindows_auth_trace (net : Window → WindowResult) :
    ∀ ws₁ : List Window, ∀ w : Window, ∀ ws₂ : List Window,
    (∀ x ∈ ws₁, runWindow (net x) ≠ .authFailure) →
    runWindow (net w) = .authFailure →
    (crawlWindows net (ws₁ ++ w :: ws₂)).2 = ws₁ ++ [w] := by
  intro ws₁
  induction ws₁ with
  | nil =>
    intro w ws₂ _ hauth
    simp [crawlWindows, hauth]
  | cons x xs ih =>
    intro w ws₂ hall hauth
    have hx_ne : runWindow (net x) ≠ .authFailure := hall x (List.mem_cons_self x xs)
    have ih2 := ih w ws₂ (fun y hy => hall y (List.mem_cons_of_mem x hy)) hauth
    have ih1 := crawlWindows_auth_result net (xs ++ w :: ws₂) ⟨w, by simp, hauth⟩
    rcases hrec : crawlWindows net (xs ++ w :: ws₂) with ⟨r, t⟩
    rw [hrec] at ih1 ih2
    simp at ih1 ih2
    subst ih1
    subst ih2
    cases hx : runWindow (net x) with
    | ok items => simp [crawlWindows, hx, hrec]
    | authFailure => exact absurd hx hx_ne
    | otherFailure => simp [crawlWindows, hx, hrec]

/-- C3: if some window's listing response has a resolved URL or a `Location`
header referencing the portal's login path, the crawl raises
`UnauthenticatedSessionException` and that exception propagates out of the
whole crawl: the overall result is the propagated exception (so no partial
item list is returned), and — provided the earlier windows did not
themselves trigger it — the requested-window trace stops exactly at the
offending window, so no subsequent window is processed. -/
theorem auth_propagation (net : Window → WindowResult) (s e : Int)
    (ws₁ ws₂ : List Window) (w : Window)
    (u l : Option String) (rows : List Row)
    (hsplit : buscarWindows s e = ws₁ ++ w :: ws₂)
    (hnet : net w = .response u l rows)
    (hauth : checkAuthentication u l = true) :
    (buscar_nfse net s e).1 = .unauthenticated ∧
    ((∀ x ∈ ws₁, runWindow (net x) ≠ .authFailure) →
      (buscar_nfse net s e).2 = ws₁ ++ [w]) := by
  have hw : runWindow (net w) = .authFailure := by
    rw [hnet]
    simp [runWindow, hauth]
  constructor
  · show (crawlWindows net (buscarWindows s e)).1 = _
    rw [hsplit]
    exact crawlWindows_auth_result net _ ⟨w, by simp, hw⟩
  · intro hall
    show (crawlWindows net (buscarWindows s e)).2 = _
    rw [hsplit]
    exact crawlWindows_auth_trace net ws₁ w ws₂ hall hw

/-- Witness for C3: two windows `[0,29]`, `[30,59]`; the second window's
response URL is the login page; the exception propagates (no items) and the
crawl stops at the second window. -/
theorem auth_propagation_witness :
    (buscar_nfse c3net 0 59).1 = .unauthenticated ∧
    (buscar_nfse c3net 0 59).2 = [(0, 29), (30, 59)] := by
  have h := auth_propagation c3net 0 59 [(0, 29)] [] (30, 59)
    (some "https://www.nfse.gov.br/EmissorNacional/Login?ReturnUrl=x") none []
    (by decide) rfl (by decide)
  exact ⟨h.1, h.2 (by decide)⟩

theorem crawlWindows_no_auth (net : Window → WindowResult) :
    ∀ l : List Window, (∀ x ∈ l, runWindow (net x) ≠ .authFailure) →
    crawlWindows net l = (.items (l.map (windowItems net)).flatten, l) := by
  intro l
  induction l with
  | nil => intro _; rfl
  | cons x xs ih =>
    intro hall
    have hrec := ih (fun y hy => hall y (List.mem_cons_of_mem x hy))
    cases hx : runWindow (net x) with
    | ok items => simp [crawlWindows, hx, hrec, windowItems]
    | authFailure => exact absurd hx (hall x (List.mem_cons_self x xs))
    | otherFailure => simp [crawlWindows, hx, hrec, windowItems]

/-- C4: when every window's failure (if any) is a non-authentication failure,
each failing window is caught and the crawl continues: every window is
requested, and the result is the concatenation, in window order, of the item
lists of the successful windows (failed windows contribute nothing). -/
theorem crawl_resilience (net : Window → WindowResult) (s e : Int)
    (hnoauth : ∀ x ∈ buscarWindows s e, runWindow (net x) ≠ .authFailure) :
    (buscar_nfse net s e).1 =
      .items ((buscarWindows s e).map (windowItems net)).flatten ∧
    (buscar_nfse net s e).2 = buscarWindows s e := by
  have h := crawlWindows_no_auth net (buscarWindows s e) hnoauth
  exact ⟨by show (crawlWindows net (buscarWindows s e)).1 = _; rw [h],
    by show (crawlWindows net (buscarWindows s e)).2 = _; rw [h]⟩

/-- Witness for C4: three windows over `[0, 89]`; the middle window fails
with a network error; windows 1 and 3 still contribute their items in
order. -/
theorem crawl_resilience_witness :
    (buscar_nfse c4net 0 89).1 =
      .items ((buscarWindows 0 89).map (windowItems c4net)).flatten ∧
    (buscar_nfse c4net 0 89).2 = buscarWindows 0 89 :=
  crawl_resilience c4net 0 89 (by decide)

theorem processRow_chave (r : Row) (it : NfseListItem)
    (h : processRow r = some it) : it.chave ≠ "" := by
  by_cases hc : extractChave r.href = ""
  · simp [processRow, hc] at h
  · simp only [processRow, beq_iff_eq, hc, if_false, Option.some.injEq] at h
    rw [← h]
    exact hc

theorem runWindow_ok (resp : WindowResult) (items : List NfseListItem)
    (h : runWindow resp = .ok items) :
    ∃ rows : List Row, items = rows.filterMap processRow := by
  cases resp with
  | netFailure => simp [runWindow] at h
  | response u l rows =>
    by_cases hc : checkAuthentication u l
    · simp [runWindow, hc] at h
    · simp [runWindow, hc] at h
      exact ⟨rows, h.symm⟩

theorem items_mem_of_crawl (net : Window → WindowResult) :
    ∀ l : List Window, ∀ it ∈ crawlItems (crawlWindows net l).1,
    ∃ r : Row, processRow r = some it := by
  intro l
  induction l with
  | nil => intro it hit; simp [crawlWindows, crawlItems] at hit
  | cons x xs ih =>
    intro it hit
    cases hx : runWindow (net x) with
    | authFailure => simp [crawlWindows, hx, crawlItems] at hit
    | otherFailure =>
      rcases hrec : crawlWindows net xs with ⟨r0, t⟩
      simp only [crawlWindows, hx, hrec, crawlItems] at hit
      exact ih it (by rw [hrec]; exact hit)
    | ok items =>
      rcases hrec : crawlWindows net xs with ⟨r0, t⟩
      cases r0 with
      | unauthenticated =>
        simp only [crawlWindows, hx, hrec, crawlItems] at hit
        simp at hit
      | items rest =>
        simp only [crawlWindows, hx, hrec, crawlItems, List.mem_append] at hit
        rcases hit with hit | hit
        · obtain ⟨rows, hrows⟩ := runWindow_ok (net x) items hx
          rw [hrows] at hit
          obtain ⟨r, _, hr⟩ := List.mem_filterMap.mp hit
          exact ⟨r, hr⟩
        · exact ih it (by rw [hrec]; exact hit)

/-- C8: every item returned by `buscar_nfse` carries a non-empty key; a row
whose anchor `href` is `/EmissorNacional/Notas/Download/NFSe/123456` yields
key `"123456"`; and a row without an extractable key (no matching anchor, or
no captured digit group) is silently skipped by the row callback — it is
never emitted as a null- or empty-keyed item. -/
theorem nonempty_keys :
    (∀ net : Window → WindowResult, ∀ s e : Int,
      ∀ it ∈ crawlItems (buscar_nfse net s e).1, it.chave ≠ "") ∧
    extractChave (some "/EmissorNacional/Notas/Download/NFSe/123456") = "123456" ∧
    (∀ r : Row, extractChave r.href = "" → processRow r = none) := by
  refine ⟨?_, rfl, ?_⟩
  · intro net s e it hit
    obtain ⟨r, hr⟩ := items_mem_of_crawl net (buscarWindows s e) it hit
    exact processRow_chave r it hr
  · intro r hr
    simp [processRow, hr]

/-- Witness for C8: a row whose selector finds no download anchor is
dropped. -/
theorem nonempty_keys_witness : processRow rowNoKey = none :=
  nonempty_keys.2.2 rowNoKey rfl

/-- C9: a row's amount text is parsed by first removing every `.` (thousands
separator) and then converting the comma to `.` before the numeric parse:
`"15.000,00"` parses to `15000` and `"0,50"` to `1/2` (the exact rationals of
the claimed doubles `15000.00` and `0.5`), and `parseValor` is literally that
composition for every input string. -/
theorem amount_parsing :
    parseValor "15.000,00" = some 15000 ∧
    parseValor "0,50" = some (1 / 2 : Rat) ∧
    ∀ s : String, parseValor s =
      jsParseFloat (String.mk (replaceFirstComma
        (s.toList.filter (fun c => c != '.')))) := by
  refine ⟨?_, ?_, fun s => rfl⟩
  · have h1 : parseValor "15.000,00" =
        some (((15000 : Nat) : Rat) + ((0 : Nat) : Rat) / (10 : Rat) ^ (2 : Nat)) := rfl
    rw [h1]
    norm_num
  · have h2 : parseValor "0,50" =
        some (((0 : Nat) : Rat) + ((50 : Nat) : Rat) / (10 : Rat) ^ (2 : Nat)) := rfl
    rw [h2]
    norm_num

theorem lookupField_good (fields : List (String × JVal)) (key : String)
    (h : goodFields fields = true) : goodTree (lookupField fields key) = true := by
  induction fields with
  | nil => rfl
  | cons p rest ih =>
    obtain ⟨k, v⟩ := p
    simp only [goodFields, Bool.and_eq_true] at h
    by_cases hk : k == key
    · simp [lookupField, hk, h.1]
    · simp only [lookupField, hk, if_false]
      exact ih h.2

theorem loopParts_good (parts : List String) :
    ∀ cur : JVal, goodTree cur = true →
    ∃ v, loopParts cur parts = .value v ∧ goodTree v = true := by
  induction parts with
  | nil => intro cur h; exact ⟨cur, by simp [loopParts], h⟩
  | cons part rest ih =>
    intro cur h
    cases cur with
    | jnull => exact ⟨.jnull, rfl, rfl⟩
    | jstr s =>
      obtain ⟨v, hv, hg⟩ := ih .jnull rfl
      exact ⟨v, hv, hg⟩
    | jarr xs =>
      cases xs with
      | nil => simp [goodTree] at h
      | cons x tl =>
        simp only [goodTree, Bool.and_eq_true] at h
        obtain ⟨⟨hhead, hx⟩, _⟩ := h
        cases x with
        | jnull => simp at hhead
        | jstr s =>
          obtain ⟨v, hv, hg⟩ := ih .jnull rfl
          exact ⟨v, hv, hg⟩
        | jarr ys =>
          obtain ⟨v, hv, hg⟩ := ih .jnull rfl
          exact ⟨v, hv, hg⟩
        | jobj fields =>
          have hf : goodFields fields = true := by simpa [goodTree] using hx
          obtain ⟨v, hv, hg⟩ := ih (lookupField fields part) (lookupField_good fields part hf)
          exact ⟨v, hv, hg⟩
    | jobj fields =>
      have hf : goodFields fields = true := by simpa [goodTree] using h
      obtain ⟨v, hv, hg⟩ := ih (lookupField fields part) (lookupField_good fields part hf)
      exact ⟨v, hv, hg⟩

/-- C2 (amended): `getNested` follows the unwrap-then-index rule — at each
step a sequence is replaced by its first element before indexing, a
null/absent node at the start of a step makes the whole call return null, and
a final sequence result is again replaced by its first element; the claim's
four concrete examples hold; an empty path returns the whole tree whenever
the tree is JS-truthy (the source's `!obj` check precedes the empty-path
check, so a null or empty-string tree yields null); and on every tree whose
sequence nodes are all non-empty with non-null first elements (as xml2js
output always is), the call is total and never throws. (Totality does not
hold for arbitrary trees: see the counterexample, where an empty sequence is
unwrapped to `undefined` with a field segment still to apply, and JS throws
a `TypeError`.) -/
theorem getNested_amended :
    getNested .jnull "a.b" = .value .jnull ∧
    getNested (.jobj []) "a.b" = .value .jnull ∧
    getNested (.jobj [("a", .jarr [.jobj []])]) "a.b" = .value .jnull ∧
    getNested (.jobj [("a", .jarr [.jobj [("b", .jstr "x")]])]) "a.b" =
      .value (.jstr "x") ∧
    (∀ obj : JVal, jsFalsy obj = false → getNested obj "" = .value obj) ∧
    (∀ obj : JVal, ∀ path : String, goodTree obj = true →
      ∃ v, getNested obj path = .value v) := by
  refine ⟨rfl, rfl, rfl, rfl, ?_, ?_⟩
  · intro obj hf
    unfold getNested
    simp [hf]
  intro obj path hg
  by_cases hf : jsFalsy obj = true
  · exact ⟨.jnull, by unfold getNested; simp [hf]⟩
  · have hf' : jsFalsy obj = false := by simpa using hf
    by_cases hp : (path == "") = true
    · exact ⟨obj, by unfold getNested; simp [hf', hp]⟩
    · have hp' : (path == "") = false := by simpa using hp
      obtain ⟨v, hv, _⟩ := loopParts_good (jsSplitDot path) obj hg
      cases v with
      | jnull =>
        exact ⟨.jnull, by unfold getNested; simp only [hf', hp', Bool.false_eq_true, if_false, hv]⟩
      | jstr s =>
        exact ⟨.jstr s, by unfold getNested; simp only [hf', hp', Bool.false_eq_true, if_false, hv]⟩
      | jarr xs =>
        exact ⟨arrayFirst xs, by unfold getNested; simp only [hf', hp', Bool.false_eq_true, if_false, hv]⟩
      | jobj fields =>
        exact ⟨.jobj fields, by unfold getNested; simp only [hf', hp', Bool.false_eq_true, if_false, hv]⟩

/-- Witness for C2: the tree `{a: [{b: "x"}]}` is good and extraction on it
is total. -/
theorem getNested_amended_witness :
    goodTree (.jobj [("a", .jarr [.jobj [("b", .jstr "x")]])]) = true ∧
    ∃ v, getNested (.jobj [("a", .jarr [.jobj [("b", .jstr "x")]])]) "a.b" = .value v :=
  ⟨by decide, getNested_amended.2.2.2.2.2 _ "a.b" (by decide)⟩

/-- Counterexample to C2 as stated: on the tree `{a: []}` with path `"a.b"`
the second traversal step unwraps the empty sequence to `undefined` and then
evaluates `undefined["b"]`, which throws a `TypeError` — the call does not
return null, so `getNested` is not total on every tree. -/
theorem getNested_counterexample :
    getNested (.jobj [("a", .jarr [])]) "a.b" = .thrown := rfl

theorem ensureAuthenticated_login (env : AuthEnv) (k : Nat) (c : List String)
    (hpw : strTruthy env.certPassword = true)
    (hcf : strTruthy env.certFile = true)
    (hex : env.certExists = true)
    (hk : env.loginResult k = .ok c) (hn : c ≠ []) :
    ensureAuthenticated env ⟨none, k⟩ = (.ok c, ⟨some c, k + 1⟩) := by
  have hl : ¬ (c.length = 0) := fun h => hn (List.length_eq_zero.mp h)
  unfold ensureAuthenticated
  simp [hpw, hcf, hex, hk, hl]

/-- C5: starting with an empty cache, present credentials and logins that
produce non-empty sessions, an action that throws
`UnauthenticatedSessionException` on its first attempt causes exactly two
login calls (`loginCalls = 2`: the initial acquisition plus one re-login
after the cache is cleared) and exactly two action attempts
(`actionCalls = 2`), the second attempt running with the freshly acquired
session; the second attempt's result — in particular a second
`UnauthenticatedSessionException` — is returned/propagated unmodified, with
no third attempt. -/
theorem auto_login_retry {α : Type} (env : AuthEnv)
    (action : Nat → List String → Except McpError α)
    (c0 c1 : List String)
    (hpw : strTruthy env.certPassword = true)
    (hcf : strTruthy env.certFile = true)
    (hex : env.certExists = true)
    (h0 : env.loginResult 0 = .ok c0) (h0n : c0 ≠ [])
    (h1 : env.loginResult 1 = .ok c1) (h1n : c1 ≠ [])
    (hact : action 0 c0 = .error .unauthenticated) :
    withAutoLogin env action ⟨⟨none, 0⟩, 0⟩ =
      (action 1 c1, ⟨⟨some c1, 2⟩, 2⟩) := by
  have e1 := ensureAuthenticated_login env 0 c0 hpw hcf hex h0 h0n
  have e2 := ensureAuthenticated_login env 1 c1 hpw hcf hex h1 h1n
  unfold withAutoLogin
  simp only [e1, e2, hact]

/-- Witness for C5: an action that expires on both attempts; the second
`UnauthenticatedSessionException` is the overall result, after exactly two
logins and two attempts. -/
theorem auto_login_retry_witness :
    withAutoLogin c5env c5act ⟨⟨none, 0⟩, 0⟩ =
      (.error .unauthenticated, ⟨⟨some ["session=abc"], 2⟩, 2⟩) := by
  have h := auto_login_retry c5env c5act ["session=abc"] ["session=abc"]
    rfl rfl rfl rfl (by decide) rfl (by decide) rfl
  simpa [c5act] using h

/-- C6 (documents the code bug): with credentials present and a login that
succeeds with an empty cookie list, the first `ensureAuthenticated` throws
`ApplicationException` as the claim says — but the source assigns
`cachedCookies = await login(...)` before the emptiness check, so the empty
session is cached anyway, and since `[]` is JS-truthy the second call returns
the cached empty session successfully instead of failing again. -/
theorem ensure_empty_session_cached :
    ensureAuthenticated c6env ⟨none, 0⟩ =
      (.error (.application "Nenhum cookie recebido apos login."), ⟨some [], 1⟩) ∧
    ensureAuthenticated c6env ⟨some [], 1⟩ = (.ok [], ⟨some [], 1⟩) :=
  ⟨rfl, rfl⟩

theorem isPrefixOf_append (p l l' : List Char) (h : p.isPrefixOf l = true) :
    p.isPrefixOf (l ++ l') = true := by
  rw [List.isPrefixOf_iff_prefix] at h ⊢
  exact h.trans (List.prefix_append l l')

theorem jsStartsWith_append (pre rest pat : String)
    (h : jsStartsWith pre pat = true) : jsStartsWith (pre ++ rest) pat = true := by
  unfold jsStartsWith at h ⊢
  have hd : (pre ++ rest).toList = pre.toList ++ rest.toList := by
    simp [String.toList]
  rw [hd]
  exact isPrefixOf_append _ _ _ h

/-- C7: `login` succeeds exactly when the response status is in `[200, 400)`
and the `Location` header ends with the portal's dashboard path; on such a
success with the `Set-Cookie` header set absent, it returns the empty session
rather than raising an error; and every other outcome — network failure,
missing `Location`, wrong redirect target — is an `ApplicationException`
whose message starts with the descriptive login-failure cause. -/
theorem login_success_iff (r : LoginHttp) :
    ((∃ cs, login r = .ok cs) ↔
      (∃ status location setCookie, r = .resp status location setCookie ∧
        200 ≤ status ∧ status < 400 ∧
        ∃ loc, location = some loc ∧
          jsEndsWith loc "/EmissorNacional/Dashboard" = true)) ∧
    (∀ status : Nat, ∀ loc : String, 200 ≤ status → status < 400 →
      jsEndsWith loc "/EmissorNacional/Dashboard" = true →
      login (.resp status (some loc) none) = .ok []) ∧
    (∀ m : String, login r = .error m →
      jsStartsWith m "Falha ao realizar login" = true) := by
  refine ⟨?_, ?_, ?_⟩
  · cases r with
    | netError msg =>
      constructor
      · rintro ⟨cs, hcs⟩
        simp [login] at hcs
      · rintro ⟨st, l, sc, heq, -⟩
        exact absurd heq (by simp)
    | resp status location setCookie =>
      by_cases hst : status < 200 ∨ 400 ≤ status
      · constructor
        · rintro ⟨cs, hcs⟩
          simp [login, hst] at hcs
        · rintro ⟨st, l, sc, heq, hb1, hb2, -⟩
          cases heq
          rcases hst with hst | hst <;> omega
      · cases location with
        | none =>
          constructor
          · rintro ⟨cs, hcs⟩
            simp [login, hst] at hcs
          · rintro ⟨st, l, sc, heq, hb1, hb2, loc, hloc, hend⟩
            cases heq
            exact absurd hloc (by simp)
        | some loc =>
          by_cases hend : jsEndsWith loc "/EmissorNacional/Dashboard" = true
          · constructor
            · intro _
              exact ⟨status, some loc, setCookie, rfl, by omega, by omega, loc, rfl, hend⟩
            · intro _
              cases setCookie with
              | none => exact ⟨[], by simp [login, hst, hend]⟩
              | some cs => exact ⟨cs, by simp [login, hst, hend]⟩
          · have hend' : jsEndsWith loc "/EmissorNacional/Dashboard" = false := by
              simpa using hend
            constructor
            · rintro ⟨cs, hcs⟩
              simp [login, hst, hend'] at hcs
            · rintro ⟨st, l, sc, heq, hb1, hb2, loc', hloc, hend2⟩
              cases heq
              cases hloc
              exact absurd hend2 hend
  · intro status loc h1 h2 h3
    have hst : ¬ (status < 200 ∨ 400 ≤ status) := by omega
    simp [login, hst, h3]
  · intro m hm
    cases r with
    | netError msg =>
      simp only [login, Except.error.injEq] at hm
      rw [← hm]
      exact jsStartsWith_append "Falha ao realizar login: " msg
        "Falha ao realizar login" (by decide)
    | resp status location setCookie =>
      by_cases hst : status < 200 ∨ 400 ≤ status
      · simp only [login, if_pos hst, Except.error.injEq] at hm
        rw [← hm]
        exact jsStartsWith_append
          "Falha ao realizar login: Request failed with status code "
          (toString status) "Falha ao realizar login" (by decide)
      · cases location with
        | none =>
          simp only [login, if_neg hst, Except.error.injEq] at hm
          rw [← hm]
          decide
        | some loc =>
          by_cases hend : jsEndsWith loc "/EmissorNacional/Dashboard" = true
          · cases setCookie with
            | none => simp [login, hst, hend] at hm
            | some cs => simp [login, hst, hend] at hm
          · have hend' : jsEndsWith loc "/EmissorNacional/Dashboard" = false := by
              simpa using hend
            simp only [login, if_neg hst, hend', Bool.false_eq_true, if_false,
              Except.error.injEq] at hm
            rw [← hm]
            decide

/-- Witness for C7: a 302 redirect to the dashboard with no `Set-Cookie`
header logs in successfully with an empty session. -/
theorem login_success_iff_witness :
    login (.resp 302 (some "https://www.nfse.gov.br/EmissorNacional/Dashboard") none) =
      .ok [] :=
  (login_success_iff (.resp 302
      (some "https://www.nfse.gov.br/EmissorNacional/Dashboard") none)).2.1
    302 "https://www.nfse.gov.br/EmissorNacional/Dashboard"
    (by decide) (by decide) (by decide)

end Nfse
